import Mathlib

/-!
# Verification of `scripts/scrape_map/clean_tiles.py`

Shallow embedding of the tile-cleaning engine: the per-pixel
background-to-transparency transform, the per-tile processing step
(`TileCleaner.clean_tile`), tile discovery (`TileCleaner.find_tiles`),
the sequential driver (`TileCleaner._clean_sequential`) and the run
entry point (`TileCleaner.run`).

Python `int` pixel channels are `Nat` (PIL channels are 0–255 and the
code only compares them for equality, so no overflow modelling is
needed).  Exceptions are modelled by classifying each on-disk file by
how its processing can fail (`TileFile`).  The process-wide interrupt
flag, which is only ever set asynchronously by a SIGINT handler, is
modelled as a Boolean schedule `Nat → Bool` sampled once at each of the
two places the Python code reads `self.interrupted`.
-/

namespace CleanTiles

/-- One RGBA pixel, as produced by `img.convert("RGBA")` followed by
`img.getdata()`: a 4-tuple of channels. -/
structure Pixel where
  r : Nat
  g : Nat
  b : Nat
  a : Nat
deriving DecidableEq, Repr

/-- The target background color `self.bg_color`, a 3-tuple `(R, G, B)`. -/
structure Color where
  r : Nat
  g : Nat
  b : Nat
deriving DecidableEq, Repr

/-- `DEFAULT_BG_COLOR = (221, 221, 221)`. -/
def DEFAULT_BG_COLOR : Color := ⟨221, 221, 221⟩

/-- The test `(item[0], item[1], item[2]) == self.bg_color`
(clean_tiles.py line 185): the pixel's first three channels against the
target color, the pixel's alpha ignored. -/
def matchesBg (bg : Color) (p : Pixel) : Bool :=
  p.r = bg.r && p.g = bg.g && p.b = bg.b

/-- The replacement pixel `(255, 255, 255, 0)` (line 186). -/
def transparentPixel : Pixel := ⟨255, 255, 255, 0⟩

/-- The pixel loop of `clean_tile` (lines 182–189): build `new_data`,
replacing each pixel matching the background color by
`transparentPixel` and counting the replacements in `pixels_changed`. -/
def cleanData (bg : Color) : List Pixel → List Pixel × Nat
  | [] => ([], 0)
  | p :: rest =>
    let r := cleanData bg rest
    if matchesBg bg p then (transparentPixel :: r.1, r.2 + 1)
    else (p :: r.1, r.2)

/-- A Python exception: `type(e).__name__` and `str(e)`. -/
structure PyError where
  typeName : String
  msg : String
deriving DecidableEq, Repr

/-- The error string built at clean_tiles.py line 203:
`f"{type(e).__name__}: {str(e)[:50]}"`.  Python slices strings by code
point, so `str(e)[:50]` is `String.mk (msg.data.take 50)`. -/
def errorText (e : PyError) : String :=
  e.typeName ++ ": " ++ String.mk (e.msg.data.take 50)

/-- A PNG file on disk, classified by how `clean_tile` can fail on it:
it decodes to pixel data (and a later `img.save` either succeeds or
raises), or `Image.open`/`convert` itself raises. -/
inductive TileFile where
  | ok (data : List Pixel)
  | saveErr (data : List Pixel) (e : PyError)
  | decodeErr (e : PyError)
deriving DecidableEq, Repr

/-- The pixel data a file decodes to, when `Image.open(...).convert("RGBA")`
succeeds. -/
def TileFile.decodeOf : TileFile → Option (List Pixel)
  | .ok d => some d
  | .saveErr d _ => some d
  | .decodeErr _ => none

/-- The exception `clean_tile` catches on this file with this target
color, if any: a decode error always raises; a save error raises only
when `pixels_changed > 0` (otherwise `img.save` is never called). -/
def raisesOf (bg : Color) : TileFile → Option PyError
  | .ok _ => none
  | .saveErr d e => if (cleanData bg d).2 > 0 then some e else none
  | .decodeErr e => some e

/-- `self.stats = {"cleaned": 0, "skipped": 0, "failed": 0}`. -/
structure Stats where
  cleaned : Nat
  skipped : Nat
  failed : Nat
deriving DecidableEq, Repr

/-- The number of tiles the counters account for:
`cleaned + skipped + failed`. -/
def Stats.total (s : Stats) : Nat :=
  s.cleaned + s.skipped + s.failed

/-- One entry of `self.failures`: `{"name": filename, "error": error_msg}`. -/
structure Failure where
  name : String
  error : String
deriving DecidableEq, Repr

/-- The mutable aggregates of a `TileCleaner`: the outcome counters, the
failure list, and the progress ordinal counter. -/
structure CleanerState where
  stats : Stats
  failures : List Failure
  progressCounter : Nat
deriving DecidableEq, Repr

/-- The state a fresh `TileCleaner` is constructed with. -/
def initState : CleanerState := ⟨⟨0, 0, 0⟩, [], 0⟩

/-- `os.path.join(root, file)` for POSIX-style relative paths. -/
def joinPath (root file : String) : String :=
  if root = "" then file else root ++ "/" ++ file

/-- Python's `str.endswith`: code-point level comparison, so on the
code points (`String.data`) of the two strings. -/
def pyEndsWith (s suffix : String) : Bool :=
  suffix.data.isSuffixOf s.data

/-- `os.path.relpath(filepath, input_dir)` (line 174) for the paths this
script builds, which all have the form `input_dir/...`. -/
def relName (rootDir p : String) : String :=
  if (rootDir ++ "/").data.isPrefixOf p.data then
    String.mk (p.data.drop (rootDir.length + 1))
  else p

/-- What one call of `clean_tile` produces: the updated aggregates, the
file's content afterwards, and the Boolean return value. -/
structure CleanTileResult where
  state : CleanerState
  file : TileFile
  modified : Bool
deriving DecidableEq, Repr

/-- `TileCleaner.clean_tile` (clean_tiles.py lines 159–207).  `intr` is
the value of `self.interrupted` read at line 170.  If set, return
`False` at once.  Otherwise take the next progress ordinal, decode,
run the pixel loop, and either save-and-count `cleaned`
(`pixels_changed > 0`), count `skipped`, or — when decode or save
raises — count `failed` and append one failure record. -/
def clean_tile (bg : Color) (intr : Bool) (rootDir filepath : String)
    (file : TileFile) (st : CleanerState) : CleanTileResult :=
  if intr then ⟨st, file, false⟩
  else
    let st1 : CleanerState := { st with progressCounter := st.progressCounter + 1 }
    let filename := relName rootDir filepath
    match file with
    | .decodeErr e =>
        ⟨{ st1 with stats := { st1.stats with failed := st1.stats.failed + 1 },
                    failures := st1.failures ++ [⟨filename, errorText e⟩] },
          file, false⟩
    | .ok data =>
        let r := cleanData bg data
        if r.2 > 0 then
          ⟨{ st1 with stats := { st1.stats with cleaned := st1.stats.cleaned + 1 } },
            .ok r.1, true⟩
        else
          ⟨{ st1 with stats := { st1.stats with skipped := st1.stats.skipped + 1 } },
            file, false⟩
    | .saveErr data e =>
        let r := cleanData bg data
        if r.2 > 0 then
          ⟨{ st1 with stats := { st1.stats with failed := st1.stats.failed + 1 },
                      failures := st1.failures ++ [⟨filename, errorText e⟩] },
            file, false⟩
        else
          ⟨{ st1 with stats := { st1.stats with skipped := st1.stats.skipped + 1 } },
            file, false⟩

/-- `fs` after `img.save(filepath, "PNG")` wrote `f` at path `p`. -/
def writeFile (fs : String → TileFile) (p : String) (f : TileFile) : String → TileFile :=
  fun q => if q = p then f else fs q

/-- `TileCleaner._clean_sequential` (lines 246–251).  `fs` maps each
path to its on-disk content.  `sch k` is the value `self.interrupted`
has at the `k`-th read; each loop iteration reads the flag twice (once
in the loop guard at line 249, once inside `clean_tile` at line 170),
so the schedule is shifted by two per tile. -/
def clean_sequential (bg : Color) (rootDir : String) :
    List String → (Nat → Bool) → CleanerState → (String → TileFile) →
      CleanerState × (String → TileFile)
  | [], _, st, fs => (st, fs)
  | p :: rest, sch, st, fs =>
    if sch 0 then (st, fs)
    else
      let r := clean_tile bg (sch 1) rootDir p (fs p) st
      clean_sequential bg rootDir rest (fun k => sch (k + 2)) r.state
        (writeFile fs p r.file)

/-- The output of `os.walk(input_dir)` as `find_tiles` consumes it: the
`(root, files)` part of each `(root, dirs, files)` triple, for every
directory of the full recursive traversal. -/
abbrev WalkOutput := List (String × List String)

/-- Python's `<=` on strings: lexicographic by code point, so the
lexicographic order on `String.data`. -/
def pathLe (a b : String) : Prop :=
  a.data ≤ b.data

instance : DecidableRel pathLe := fun a b =>
  inferInstanceAs (Decidable (a.data ≤ b.data))

/-- Model of Python's `sorted()` on strings: a stable comparison sort
by the lexicographic order. -/
def pySorted (l : List String) : List String :=
  l.insertionSort pathLe

/-- `TileCleaner.find_tiles` (lines 145–157): for each directory of the
traversal append `os.path.join(root, file)` for each file whose name
ends in `".png"`, then sort the collected paths. -/
def find_tiles (walk : WalkOutput) : List String :=
  pySorted ((walk.map fun rf =>
    (rf.2.filter fun f => pyEndsWith f ".png").map fun f => joinPath rf.1 f).flatten)

/-- `TileCleaner.run` (lines 209–244), in the sequential mode
(`parallel = 1`).  `rootExists` is `os.path.exists(self.input_dir)`.
Missing root or empty discovery return exit code 1 before any tile is
touched; otherwise all discovered tiles are processed and the exit code
is 0 exactly when the `failed` counter ends at 0.  Returns the exit
code, the final aggregates and the final file contents. -/
def run (bg : Color) (rootDir : String) (rootExists : Bool) (walk : WalkOutput)
    (fs : String → TileFile) (sch : Nat → Bool) :
    Nat × CleanerState × (String → TileFile) :=
  if !rootExists then (1, initState, fs)
  else
    let tiles := find_tiles walk
    if tiles.isEmpty then (1, initState, fs)
    else
      let r := clean_sequential bg rootDir tiles sch initState fs
      (if r.1.stats.failed = 0 then 0 else 1, r.1, r.2)

/-! ## Helper lemmas -/

theorem cleanData_fst (bg : Color) (l : List Pixel) :
    (cleanData bg l).1 = l.map fun p => if matchesBg bg p then transparentPixel else p := by
  induction l with
  | nil => rfl
  | cons p rest ih =>
    simp only [cleanData, List.map_cons]
    split <;> simp_all

theorem cleanData_snd (bg : Color) (l : List Pixel) :
    (cleanData bg l).2 = l.countP (matchesBg bg) := by
  induction l with
  | nil => rfl
  | cons p rest ih =>
    simp only [cleanData, List.countP_cons]
    split <;> simp_all

theorem cleanData_length (bg : Color) (l : List Pixel) :
    (cleanData bg l).1.length = l.length := by
  rw [cleanData_fst]; exact l.length_map _

theorem matchesBg_transparentPixel (bg : Color) :
    matchesBg bg transparentPixel = true ↔ bg = ⟨255, 255, 255⟩ := by
  cases bg with
  | mk r g b =>
    simp only [matchesBg, transparentPixel, Bool.and_eq_true, decide_eq_true_eq,
      Color.mk.injEq]
    constructor
    · rintro ⟨⟨h1, h2⟩, h3⟩
      exact ⟨h1.symm, h2.symm, h3.symm⟩
    · rintro ⟨h1, h2, h3⟩
      exact ⟨⟨h1.symm, h2.symm⟩, h3.symm⟩

theorem cleanData_cleanData_snd (bg : Color) (hw : bg ≠ ⟨255, 255, 255⟩)
    (l : List Pixel) : (cleanData bg (cleanData bg l).1).2 = 0 := by
  rw [cleanData_snd, cleanData_fst, List.countP_map, List.countP_eq_zero]
  intro p _
  simp only [Function.comp_apply]
  split
  · intro h
    exact hw ((matchesBg_transparentPixel bg).mp h)
  · simp_all

theorem clean_tile_of_interrupted (bg : Color) (rootDir p : String) (f : TileFile)
    (st : CleanerState) : clean_tile bg true rootDir p f st = ⟨st, f, false⟩ := rfl

theorem clean_tile_step (bg : Color) (rootDir p : String) (f : TileFile)
    (st : CleanerState) :
    (clean_tile bg false rootDir p f st).state.progressCounter = st.progressCounter + 1 ∧
    (((clean_tile bg false rootDir p f st).state.stats.cleaned = st.stats.cleaned + 1 ∧
      (clean_tile bg false rootDir p f st).state.stats.skipped = st.stats.skipped ∧
      (clean_tile bg false rootDir p f st).state.stats.failed = st.stats.failed ∧
      (clean_tile bg false rootDir p f st).state.failures = st.failures) ∨
     ((clean_tile bg false rootDir p f st).state.stats.cleaned = st.stats.cleaned ∧
      (clean_tile bg false rootDir p f st).state.stats.skipped = st.stats.skipped + 1 ∧
      (clean_tile bg false rootDir p f st).state.stats.failed = st.stats.failed ∧
      (clean_tile bg false rootDir p f st).state.failures = st.failures) ∨
     ((clean_tile bg false rootDir p f st).state.stats.cleaned = st.stats.cleaned ∧
      (clean_tile bg false rootDir p f st).state.stats.skipped = st.stats.skipped ∧
      (clean_tile bg false rootDir p f st).state.stats.failed = st.stats.failed + 1)) := by
  unfold clean_tile
  cases f <;> simp <;> split <;> simp

theorem clean_tile_total (bg : Color) (rootDir p : String) (f : TileFile)
    (st : CleanerState) :
    (clean_tile bg false rootDir p f st).state.stats.total = st.stats.total + 1 := by
  obtain ⟨-, ⟨h1, h2, h3, -⟩ | ⟨h1, h2, h3, -⟩ | ⟨h1, h2, h3⟩⟩ :=
      clean_tile_step bg rootDir p f st <;>
    simp only [Stats.total, h1, h2, h3] <;> omega

theorem clean_sequential_invariant (bg : Color) (rootDir : String)
    (tiles : List String) (sch : Nat → Bool) (st : CleanerState)
    (fs : String → TileFile) :
    (clean_sequential bg rootDir tiles sch st fs).1.stats.total + st.progressCounter
        = st.stats.total + (clean_sequential bg rootDir tiles sch st fs).1.progressCounter ∧
    (clean_sequential bg rootDir tiles sch st fs).1.progressCounter
        ≤ st.progressCounter + tiles.length ∧
    ((∀ k, sch k = false) →
      (clean_sequential bg rootDir tiles sch st fs).1.progressCounter
        = st.progressCounter + tiles.length) := by
  induction tiles generalizing sch st fs with
  | nil => simp [clean_sequential]
  | cons p rest ih =>
    simp only [clean_sequential]
    split
    · rename_i h0
      refine ⟨by simp, by simp, fun hall => ?_⟩
      rw [hall 0] at h0
      simp at h0
    · rename_i h0
      rcases hb : sch 1 with _ | _
      · obtain ⟨ihEq, ihLe, ihAll⟩ :=
          ih (fun k => sch (k + 2)) (clean_tile bg false rootDir p (fs p) st).state
            (writeFile fs p (clean_tile bg false rootDir p (fs p) st).file)
        have hpr := (clean_tile_step bg rootDir p (fs p) st).1
        have htot := clean_tile_total bg rootDir p (fs p) st
        refine ⟨by omega, by simp only [List.length_cons]; omega, fun hall => ?_⟩
        have h2 := ihAll fun k => hall (k + 2)
        simp only [List.length_cons]
        omega
      · simp only [clean_tile_of_interrupted]
        obtain ⟨ihEq, ihLe, ihAll⟩ := ih (fun k => sch (k + 2)) st (writeFile fs p (fs p))
        refine ⟨ihEq, ?_, fun hall => ?_⟩
        · simp only [List.length_cons]
          omega
        · rw [hall 1] at hb
          simp at hb

instance : IsTrans String pathLe :=
  ⟨fun _ _ _ h1 h2 => le_trans (α := List Char) h1 h2⟩

instance : IsTotal String pathLe :=
  ⟨fun a b => le_total a.data b.data⟩

instance : IsAntisymm String pathLe :=
  ⟨fun a b h1 h2 => by
    cases a with
    | mk da =>
      cases b with
      | mk db => exact congrArg String.mk (le_antisymm h1 h2)⟩

theorem pathLe_iff (a b : String) : pathLe a b ↔ a ≤ b := by
  rw [String.le_iff_toList_le]
  exact Iff.rfl

theorem flatten_perm_of_perm {α : Type} {l₁ l₂ : List (List α)} (h : l₁.Perm l₂) :
    l₁.flatten.Perm l₂.flatten := by
  induction h with
  | nil => rfl
  | cons x _ ih => simpa using ih.append_left x
  | swap x y l =>
    simp only [List.flatten_cons]
    rw [← List.append_assoc, ← List.append_assoc]
    exact (List.perm_append_comm).append_right _
  | trans _ _ ih1 ih2 => exact ih1.trans ih2

theorem pySorted_perm (l : List String) : (pySorted l).Perm l :=
  List.perm_insertionSort pathLe l

theorem pySorted_sorted (l : List String) : (pySorted l).Sorted pathLe :=
  List.sorted_insertionSort pathLe l

theorem find_tiles_perm (walk : WalkOutput) :
    (find_tiles walk).Perm ((walk.map fun rf =>
      (rf.2.filter fun f => pyEndsWith f ".png").map fun f => joinPath rf.1 f).flatten) :=
  pySorted_perm _

theorem find_tiles_sorted (walk : WalkOutput) :
    (find_tiles walk).Sorted (· ≤ ·) :=
  (pySorted_sorted _).imp fun h => (pathLe_iff _ _).mp h

theorem find_tiles_deterministic {walk walk' : WalkOutput} (h : walk'.Perm walk) :
    find_tiles walk' = find_tiles walk := by
  refine List.eq_of_perm_of_sorted ?_ (pySorted_sorted _) (pySorted_sorted _)
  exact (find_tiles_perm walk').trans
    ((flatten_perm_of_perm (h.map _)).trans (find_tiles_perm walk).symm)

theorem clean_tile_cleaned (bg : Color) (rootDir p : String) (data : List Pixel)
    (st : CleanerState) (h : 0 < (cleanData bg data).2) :
    clean_tile bg false rootDir p (.ok data) st =
      ⟨{ st with progressCounter := st.progressCounter + 1,
                 stats := { st.stats with cleaned := st.stats.cleaned + 1 } },
        .ok (cleanData bg data).1, true⟩ := by
  unfold clean_tile
  simp [h]

theorem clean_tile_skipped (bg : Color) (rootDir p : String) (f : TileFile)
    (data : List Pixel) (st : CleanerState) (hd : f.decodeOf = some data)
    (h : (cleanData bg data).2 = 0) :
    clean_tile bg false rootDir p f st =
      ⟨{ st with progressCounter := st.progressCounter + 1,
                 stats := { st.stats with skipped := st.stats.skipped + 1 } },
        f, false⟩ := by
  cases f with
  | ok d =>
    obtain rfl : d = data := by simpa [TileFile.decodeOf] using hd
    unfold clean_tile
    simp [h]
  | saveErr d e =>
    obtain rfl : d = data := by simpa [TileFile.decodeOf] using hd
    unfold clean_tile
    simp [h]
  | decodeErr e => simp [TileFile.decodeOf] at hd

theorem clean_tile_failed (bg : Color) (rootDir p : String) (f : TileFile)
    (st : CleanerState) (e : PyError) (he : raisesOf bg f = some e) :
    clean_tile bg false rootDir p f st =
      ⟨{ st with progressCounter := st.progressCounter + 1,
                 stats := { st.stats with failed := st.stats.failed + 1 },
                 failures := st.failures ++ [⟨relName rootDir p, errorText e⟩] },
        f, false⟩ := by
  cases f with
  | ok d => simp [raisesOf] at he
  | saveErr d e' =>
    rw [raisesOf] at he
    split at he
    · obtain rfl : e' = e := by simpa using he
      rename_i hpos
      unfold clean_tile
      simp [hpos]
    · simp at he
  | decodeErr e' =>
    obtain rfl : e' = e := by simpa [raisesOf] using he
    unfold clean_tile
    simp

/-! ## Claims -/

/-- C1: the per-tile transform of `clean_tile` maps each pixel whose first
three channels equal the target color (existing alpha ignored) to
`(255, 255, 255, 0)`, leaves every other pixel exactly unchanged, and the
changed-pixel count it reports equals the exact number of pixels that
matched the target color. -/
theorem pixel_transform_correct (bg : Color) (data : List Pixel) :
    (cleanData bg data).1 =
      (data.map fun p => if matchesBg bg p then transparentPixel else p) ∧
    (cleanData bg data).2 = data.countP (matchesBg bg) :=
  ⟨cleanData_fst bg data, cleanData_snd bg data⟩

/-- C2, counterexample: with target color `(255, 255, 255)` a tile whose
only pixel is white is "cleaned" on the first run, and on the second run
it is "cleaned" again (its skipped counter stays 0), because the
replacement pixel `(255, 255, 255, 0)` still matches a white target.
The claim's "skipped on the second run" fails. -/
theorem clean_twice_counterexample :
    (clean_tile ⟨255, 255, 255⟩ false "o" "o/a.png"
        (.ok [⟨255, 255, 255, 255⟩]) initState).state.stats.cleaned = 1 ∧
    (clean_tile ⟨255, 255, 255⟩ false "o" "o/a.png"
        (clean_tile ⟨255, 255, 255⟩ false "o" "o/a.png"
          (.ok [⟨255, 255, 255, 255⟩]) initState).file
        initState).state.stats.skipped = 0 ∧
    (clean_tile ⟨255, 255, 255⟩ false "o" "o/a.png"
        (clean_tile ⟨255, 255, 255⟩ false "o" "o/a.png"
          (.ok [⟨255, 255, 255, 255⟩]) initState).file
        initState).state.stats.cleaned = 1 := by
  decide

/-- C2, amended: for every target color other than `(255, 255, 255)`,
applying the transform twice to a tile containing at least one matching
pixel yields "cleaned" on the first run and "skipped" on the second run,
and the tile's content after the second run equals its content after the
first run.  (With a white target the second run is "cleaned" again, but
the content is still unchanged.) -/
theorem clean_twice_amended (bg : Color) (rootDir p : String) (data : List Pixel)
    (st1 st2 : CleanerState) (hw : bg ≠ ⟨255, 255, 255⟩)
    (hm : ∃ q ∈ data, matchesBg bg q = true) :
    (clean_tile bg false rootDir p (.ok data) st1).state.stats.cleaned
        = st1.stats.cleaned + 1 ∧
    (clean_tile bg false rootDir p
        (clean_tile bg false rootDir p (.ok data) st1).file st2).state.stats.skipped
      = st2.stats.skipped + 1 ∧
    (clean_tile bg false rootDir p
        (clean_tile bg false rootDir p (.ok data) st1).file st2).file
      = (clean_tile bg false rootDir p (.ok data) st1).file := by
  have hpos : 0 < (cleanData bg data).2 := by
    rw [cleanData_snd]
    exact List.countP_pos_iff.mpr hm
  rw [clean_tile_cleaned bg rootDir p data st1 hpos]
  rw [clean_tile_skipped bg rootDir p (.ok (cleanData bg data).1)
    (cleanData bg data).1 st2 rfl (cleanData_cleanData_snd bg hw data)]
  exact ⟨rfl, rfl, rfl⟩

/-- C2, witness for the amended theorem: target `(221, 221, 221)` on a
two-pixel tile with one match. -/
theorem clean_twice_amended_witness :
    (clean_tile ⟨221, 221, 221⟩ false "o" "o/a.png"
        (.ok [⟨221, 221, 221, 255⟩, ⟨9, 9, 9, 9⟩]) initState).state.stats.cleaned = 1 ∧
    (clean_tile ⟨221, 221, 221⟩ false "o" "o/a.png"
        (clean_tile ⟨221, 221, 221⟩ false "o" "o/a.png"
          (.ok [⟨221, 221, 221, 255⟩, ⟨9, 9, 9, 9⟩]) initState).file
        initState).state.stats.skipped = 1 ∧
    (clean_tile ⟨221, 221, 221⟩ false "o" "o/a.png"
        (clean_tile ⟨221, 221, 221⟩ false "o" "o/a.png"
          (.ok [⟨221, 221, 221, 255⟩, ⟨9, 9, 9, 9⟩]) initState).file
        initState).file
      = (clean_tile ⟨221, 221, 221⟩ false "o" "o/a.png"
          (.ok [⟨221, 221, 221, 255⟩, ⟨9, 9, 9, 9⟩]) initState).file :=
  clean_twice_amended ⟨221, 221, 221⟩ "o" "o/a.png"
    [⟨221, 221, 221, 255⟩, ⟨9, 9, 9, 9⟩] initState initState (by decide)
    ⟨⟨221, 221, 221, 255⟩, by decide⟩

/-- C3: every tile attempted by `clean_tile` (one that passes the
interruption check, hence consumes a progress ordinal) increments
exactly one of the counters `{cleaned, skipped, failed}`; and after a
sequential run starting from a fresh cleaner, `cleaned + skipped +
failed` equals the number of tiles actually attempted (the final
progress ordinal), which is at most the number of discovered tiles and
equal to it when no interrupt ever arrives. -/
theorem counters_partition_attempted (bg : Color) (rootDir : String) :
    (∀ (p : String) (f : TileFile) (st : CleanerState),
      (clean_tile bg false rootDir p f st).state.progressCounter
          = st.progressCounter + 1 ∧
      (((clean_tile bg false rootDir p f st).state.stats.cleaned = st.stats.cleaned + 1 ∧
        (clean_tile bg false rootDir p f st).state.stats.skipped = st.stats.skipped ∧
        (clean_tile bg false rootDir p f st).state.stats.failed = st.stats.failed) ∨
       ((clean_tile bg false rootDir p f st).state.stats.cleaned = st.stats.cleaned ∧
        (clean_tile bg false rootDir p f st).state.stats.skipped = st.stats.skipped + 1 ∧
        (clean_tile bg false rootDir p f st).state.stats.failed = st.stats.failed) ∨
       ((clean_tile bg false rootDir p f st).state.stats.cleaned = st.stats.cleaned ∧
        (clean_tile bg false rootDir p f st).state.stats.skipped = st.stats.skipped ∧
        (clean_tile bg false rootDir p f st).state.stats.failed = st.stats.failed + 1))) ∧
    (∀ (tiles : List String) (sch : Nat → Bool) (fs : String → TileFile),
      (clean_sequential bg rootDir tiles sch initState fs).1.stats.cleaned +
          (clean_sequential bg rootDir tiles sch initState fs).1.stats.skipped +
          (clean_sequential bg rootDir tiles sch initState fs).1.stats.failed
        = (clean_sequential bg rootDir tiles sch initState fs).1.progressCounter ∧
      (clean_sequential bg rootDir tiles sch initState fs).1.progressCounter
        ≤ tiles.length ∧
      ((∀ k, sch k = false) →
        (clean_sequential bg rootDir tiles sch initState fs).1.progressCounter
          = tiles.length)) := by
  constructor
  · intro p f st
    obtain ⟨h1, h2⟩ := clean_tile_step bg rootDir p f st
    refine ⟨h1, ?_⟩
    rcases h2 with ⟨a, b, c, -⟩ | ⟨a, b, c, -⟩ | h
    · exact Or.inl ⟨a, b, c⟩
    · exact Or.inr (Or.inl ⟨a, b, c⟩)
    · exact Or.inr (Or.inr h)
  · intro tiles sch fs
    obtain ⟨hEq, hLe, hAll⟩ :=
      clean_sequential_invariant bg rootDir tiles sch initState fs
    have h0 : initState.stats.total = 0 := rfl
    have h1 : initState.progressCounter = 0 := rfl
    simp only [h0, h1, Nat.add_zero, Nat.zero_add] at hEq hLe hAll
    refine ⟨?_, hLe, hAll⟩
    simpa [Stats.total] using hEq

/-- C3, witness: a fully processed two-tile run with no interrupts ends
with counter sum 2 and all tiles attempted. -/
theorem counters_partition_attempted_witness :
    (clean_sequential DEFAULT_BG_COLOR "o" ["o/a.png", "o/b.png"] (fun _ => false)
        initState (fun _ => .ok [⟨221, 221, 221, 1⟩])).1.progressCounter
      = ["o/a.png", "o/b.png"].length :=
  ((counters_partition_attempted DEFAULT_BG_COLOR "o").2 ["o/a.png", "o/b.png"]
    (fun _ => false) (fun _ => .ok [⟨221, 221, 221, 1⟩])).2.2 fun _ => rfl

/-- C4: for every tile whose decoded pixels contain zero matches of the
target color, `clean_tile` performs no write — the file is exactly the
input file — the outcome counted is "skipped", and the call returns
`False`. -/
theorem zero_matches_skipped_no_write (bg : Color) (rootDir p : String)
    (f : TileFile) (data : List Pixel) (st : CleanerState)
    (hd : f.decodeOf = some data) (hz : data.countP (matchesBg bg) = 0) :
    clean_tile bg false rootDir p f st =
      ⟨{ st with progressCounter := st.progressCounter + 1,
                 stats := { st.stats with skipped := st.stats.skipped + 1 } },
        f, false⟩ :=
  clean_tile_skipped bg rootDir p f data st hd (by rw [cleanData_snd]; exact hz)

/-- C4, witness: a tile with one pixel that does not match the default
target color is skipped and its file object is returned unchanged. -/
theorem zero_matches_skipped_no_write_witness :
    clean_tile DEFAULT_BG_COLOR false "o" "o/b.png" (.ok [⟨1, 2, 3, 4⟩]) initState =
      ⟨{ initState with progressCounter := initState.progressCounter + 1,
                        stats := { initState.stats with
                                    skipped := initState.stats.skipped + 1 } },
        .ok [⟨1, 2, 3, 4⟩], false⟩ :=
  zero_matches_skipped_no_write DEFAULT_BG_COLOR "o" "o/b.png" (.ok [⟨1, 2, 3, 4⟩])
    [⟨1, 2, 3, 4⟩] initState rfl (by decide)

/-- C5: any exception raised while processing a tile (decode failure, or
save failure when a write is due) is caught inside `clean_tile`: the
tile is counted as failed, exactly one failure record carrying its
relative name and formatted error text is appended, the call returns
normally (`False`), and a sequential run continues through all the
remaining tiles. -/
theorem tile_error_caught_run_continues (bg : Color) (rootDir p : String)
    (fs : String → TileFile) (st : CleanerState) (e : PyError)
    (rest : List String) (he : raisesOf bg (fs p) = some e) :
    (clean_tile bg false rootDir p (fs p) st).state.stats.failed
        = st.stats.failed + 1 ∧
    (clean_tile bg false rootDir p (fs p) st).state.stats.cleaned
        = st.stats.cleaned ∧
    (clean_tile bg false rootDir p (fs p) st).state.stats.skipped
        = st.stats.skipped ∧
    (clean_tile bg false rootDir p (fs p) st).state.failures
        = st.failures ++ [⟨relName rootDir p, errorText e⟩] ∧
    (clean_tile bg false rootDir p (fs p) st).modified = false ∧
    (clean_sequential bg rootDir (p :: rest) (fun _ => false) st fs).1.progressCounter
        = st.progressCounter + (rest.length + 1) := by
  rw [clean_tile_failed bg rootDir p (fs p) st e he]
  refine ⟨rfl, rfl, rfl, rfl, rfl, ?_⟩
  obtain ⟨-, -, hAll⟩ :=
    clean_sequential_invariant bg rootDir (p :: rest) (fun _ => false) st fs
  simpa using hAll fun _ => rfl

/-- C5, witness: a run over a corrupt tile followed by a good tile
counts one failure, records it, and still attempts the second tile. -/
theorem tile_error_caught_run_continues_witness :
    (clean_tile DEFAULT_BG_COLOR false "o" "o/a.png"
        ((fun q => if q = "o/a.png" then TileFile.decodeErr ⟨"OSError", "bad"⟩
                   else .ok []) "o/a.png") initState).state.stats.failed
      = initState.stats.failed + 1 ∧
    (clean_tile DEFAULT_BG_COLOR false "o" "o/a.png"
        ((fun q => if q = "o/a.png" then TileFile.decodeErr ⟨"OSError", "bad"⟩
                   else .ok []) "o/a.png") initState).state.stats.cleaned
      = initState.stats.cleaned ∧
    (clean_tile DEFAULT_BG_COLOR false "o" "o/a.png"
        ((fun q => if q = "o/a.png" then TileFile.decodeErr ⟨"OSError", "bad"⟩
                   else .ok []) "o/a.png") initState).state.stats.skipped
      = initState.stats.skipped ∧
    (clean_tile DEFAULT_BG_COLOR false "o" "o/a.png"
        ((fun q => if q = "o/a.png" then TileFile.decodeErr ⟨"OSError", "bad"⟩
                   else .ok []) "o/a.png") initState).state.failures
      = initState.failures ++ [⟨relName "o" "o/a.png", errorText ⟨"OSError", "bad"⟩⟩] ∧
    (clean_tile DEFAULT_BG_COLOR false "o" "o/a.png"
        ((fun q => if q = "o/a.png" then TileFile.decodeErr ⟨"OSError", "bad"⟩
                   else .ok []) "o/a.png") initState).modified = false ∧
    (clean_sequential DEFAULT_BG_COLOR "o" ["o/a.png", "o/b.png"] (fun _ => false)
        initState (fun q => if q = "o/a.png" then TileFile.decodeErr ⟨"OSError", "bad"⟩
                            else .ok [])).1.progressCounter
      = initState.progressCounter + (["o/b.png"].length + 1) :=
  tile_error_caught_run_continues DEFAULT_BG_COLOR "o" "o/a.png"
    (fun q => if q = "o/a.png" then TileFile.decodeErr ⟨"OSError", "bad"⟩ else .ok [])
    initState ⟨"OSError", "bad"⟩ ["o/b.png"] (by decide)

/-- C6: the run's exit status is 0 only if the `failed` counter is zero
at the end of the run, and whenever the `failed` counter is nonzero the
run exits with status 1. -/
theorem exit_status_reflects_failures (bg : Color) (rootDir : String)
    (rootExists : Bool) (walk : WalkOutput) (fs : String → TileFile)
    (sch : Nat → Bool) :
    ((run bg rootDir rootExists walk fs sch).1 = 0 →
      (run bg rootDir rootExists walk fs sch).2.1.stats.failed = 0) ∧
    ((run bg rootDir rootExists walk fs sch).2.1.stats.failed ≠ 0 →
      (run bg rootDir rootExists walk fs sch).1 = 1) := by
  unfold run
  rcases rootExists with _ | _
  · simp [initState]
  · simp only [Bool.not_true, Bool.false_eq_true, if_false]
    split
    · simp [initState]
    · split
      · rename_i hz
        simp [hz]
      · rename_i hnz
        simp [hnz]

/-- C6, witness: a run over one clean tile exits 0, and the theorem
turns that into `failed = 0`. -/
theorem exit_status_reflects_failures_witness :
    (run DEFAULT_BG_COLOR "o" true [("o", ["a.png"])] (fun _ => .ok [])
        (fun _ => false)).2.1.stats.failed = 0 :=
  (exit_status_reflects_failures DEFAULT_BG_COLOR "o" true [("o", ["a.png"])]
    (fun _ => .ok []) (fun _ => false)).1 (by decide)

/-- C7: if the input root does not exist, or discovery finds no PNG
file, `run` exits with status 1 without processing any tile: the
counters and the failure list are those of a fresh cleaner and no file
content changes. -/
theorem discovery_failure_is_fatal_and_pure (bg : Color) (rootDir : String)
    (rootExists : Bool) (walk : WalkOutput) (fs : String → TileFile)
    (sch : Nat → Bool) (h : rootExists = false ∨ find_tiles walk = []) :
    run bg rootDir rootExists walk fs sch = (1, initState, fs) := by
  rcases h with h | h
  · subst h
    rfl
  · unfold run
    rcases rootExists with _ | _
    · rfl
    · simp [h]

/-- C7, witness: a missing root directory yields exit 1 with untouched
state and files. -/
theorem discovery_failure_is_fatal_and_pure_witness :
    run DEFAULT_BG_COLOR "o" false [("o", ["a.png"])] (fun _ => .ok [])
        (fun _ => false)
      = (1, initState, fun _ => .ok []) :=
  discovery_failure_is_fatal_and_pure DEFAULT_BG_COLOR "o" false [("o", ["a.png"])]
    (fun _ => .ok []) (fun _ => false) (Or.inl rfl)

/-- C8: `find_tiles` returns exactly the paths of the recursive
traversal whose file name ends in ".png" (membership), ordered
lexicographically by full path (sortedness for the string order), and
discovery is deterministic: it returns the same list even when the
traversal enumerates the directories in another order. -/
theorem find_tiles_exact_sorted_deterministic (walk : WalkOutput) :
    (∀ x, x ∈ find_tiles walk ↔
      ∃ rf ∈ walk, ∃ f ∈ rf.2, pyEndsWith f ".png" = true ∧ x = joinPath rf.1 f) ∧
    (find_tiles walk).Sorted (· ≤ ·) ∧
    (∀ walk' : WalkOutput, walk'.Perm walk → find_tiles walk' = find_tiles walk) := by
  refine ⟨fun x => ?_, find_tiles_sorted walk, fun _ h => find_tiles_deterministic h⟩
  rw [(find_tiles_perm walk).mem_iff]
  simp only [List.mem_flatten, List.mem_map]
  constructor
  · rintro ⟨L, ⟨rf, hrf, rfl⟩, hx⟩
    rw [List.mem_map] at hx
    obtain ⟨f, hf', rfl⟩ := hx
    rw [List.mem_filter] at hf'
    exact ⟨rf, hrf, f, hf'.1, hf'.2, rfl⟩
  · rintro ⟨rf, hrf, f, hf, hpng, rfl⟩
    refine ⟨_, ⟨rf, hrf, rfl⟩, ?_⟩
    rw [List.mem_map]
    exact ⟨f, List.mem_filter.mpr ⟨hf, hpng⟩, rfl⟩

/-- C8, witness: discovery over the same tree with its directories
listed in the opposite order returns the identical sorted list. -/
theorem find_tiles_exact_sorted_deterministic_witness :
    find_tiles [("o/sub", ["d.png"]), ("o", ["b.png", "a.png", "c.txt"])]
      = find_tiles [("o", ["b.png", "a.png", "c.txt"]), ("o/sub", ["d.png"])] :=
  (find_tiles_exact_sorted_deterministic
    [("o", ["b.png", "a.png", "c.txt"]), ("o/sub", ["d.png"])]).2.2
    [("o/sub", ["d.png"]), ("o", ["b.png", "a.png", "c.txt"])] (by decide)

/-- C9: if the interrupted flag is already set when `clean_tile` is
invoked, the call returns `False` and changes nothing: no progress
ordinal is consumed, no counter moves, no failure record is appended,
and the tile's file is returned untouched. -/
theorem interrupted_entry_is_noop (bg : Color) (rootDir p : String)
    (f : TileFile) (st : CleanerState) :
    clean_tile bg true rootDir p f st = ⟨st, f, false⟩ ∧
    (clean_tile bg true rootDir p f st).state.progressCounter = st.progressCounter ∧
    (clean_tile bg true rootDir p f st).state.stats = st.stats ∧
    (clean_tile bg true rootDir p f st).state.failures = st.failures ∧
    (clean_tile bg true rootDir p f st).file = f :=
  ⟨rfl, rfl, rfl, rfl, rfl⟩

/-- C10: the error text stored in a failure record is the exception's
type name, then ": ", then a truncation of the exception's message to
its first at most 50 characters. -/
theorem failure_error_text_truncated (bg : Color) (rootDir p : String)
    (f : TileFile) (st : CleanerState) (e : PyError)
    (he : raisesOf bg f = some e) :
    ∃ t : String,
      (clean_tile bg false rootDir p f st).state.failures
        = st.failures ++ [⟨relName rootDir p, e.typeName ++ ": " ++ t⟩] ∧
      t.length ≤ 50 ∧ t.data = e.msg.data.take 50 := by
  refine ⟨String.mk (e.msg.data.take 50), ?_, ?_, rfl⟩
  · rw [clean_tile_failed bg rootDir p f st e he]
    rfl
  · show (e.msg.data.take 50).length ≤ 50
    rw [List.length_take]
    exact min_le_left _ _

/-- C10, witness: an 80-character message is stored truncated to its
first 50 characters. -/
theorem failure_error_text_truncated_witness :
    ∃ t : String,
      (clean_tile DEFAULT_BG_COLOR false "o" "o/a.png"
          (.decodeErr ⟨"ValueError", String.mk (List.replicate 80 'x')⟩)
          initState).state.failures
        = initState.failures ++
            [⟨relName "o" "o/a.png", "ValueError" ++ ": " ++ t⟩] ∧
      t.length ≤ 50 ∧ t.data = (String.mk (List.replicate 80 'x')).data.take 50 :=
  failure_error_text_truncated DEFAULT_BG_COLOR "o" "o/a.png"
    (.decodeErr ⟨"ValueError", String.mk (List.replicate 80 'x')⟩) initState
    ⟨"ValueError", String.mk (List.replicate 80 'x')⟩ (by decide)

end CleanTiles
